import Mathlib

/-!
Verification development for the eternal-green anti-idle utility.

The Python sources under `eternal_green/` are shallowly embedded here:
pure functions become Lean functions, the `ConfigManager`'s file/cache
state becomes an explicit `ManagerState` record threaded through the
operations, and the activity loop's interaction with the outside world
(pyautogui injection calls that may raise, `random.randint` draws, and
stop requests arriving during the inter-cycle wait) is driven by an
explicit per-cycle environment record.
-/

namespace EternalGreen

/-- Embeds `EternalGreenConfig` (config.py).  Python ints are modelled as
`Int`; the `isinstance` checks of `validate` are vacuous under this
typing, so only the bound checks remain observable. -/
structure EternalGreenConfig where
  interval_seconds : Int := 300
  movement_pixels : Int := 2
  silent_mode : Bool := false
  log_file_path : String := "~/.eternal_green.log"
  random_interval : Bool := false
  interval_range_min : Int := 10
  interval_range_max : Int := 60
deriving DecidableEq, Repr

/-- One entry of the list returned by `EternalGreenConfig.validate`.
Each constructor stands for one of the f-string error messages of
config.py and carries the interpolated values, so that distinct offending
values yield distinct messages just as in the source. -/
inductive ConfigError where
  | intervalSeconds (v : Int)
  | movementPixels (v : Int)
  | logFilePath
  | intervalRangeMin (v : Int)
  | intervalRangeMax (v : Int)
  | rangeOrder (lo hi : Int)
deriving DecidableEq, Repr

/-- Embeds `EternalGreenConfig.validate` (config.py lines 21-49): the
checks are performed in source order and every failing check appends its
message, so the result aggregates all violations.  The `isinstance`
checks on `silent_mode` and `random_interval` cannot fail for a typed
record and contribute no constructor. -/
def EternalGreenConfig.validate (c : EternalGreenConfig) : List ConfigError :=
  (if c.interval_seconds < 10 ∨ c.interval_seconds > 3600 then
      [ConfigError.intervalSeconds c.interval_seconds] else []) ++
  (if c.movement_pixels < 1 ∨ c.movement_pixels > 100 then
      [ConfigError.movementPixels c.movement_pixels] else []) ++
  (if c.log_file_path = "" then [ConfigError.logFilePath] else []) ++
  (if c.interval_range_min < 10 ∨ c.interval_range_min > 3600 then
      [ConfigError.intervalRangeMin c.interval_range_min] else []) ++
  (if c.interval_range_max < 10 ∨ c.interval_range_max > 3600 then
      [ConfigError.intervalRangeMax c.interval_range_max] else []) ++
  (if c.interval_range_min ≥ c.interval_range_max then
      [ConfigError.rangeOrder c.interval_range_min c.interval_range_max] else [])

/-- Whether an error message concerns one of the interval-range fields
(`interval_range_min`, `interval_range_max`, or their ordering). -/
def ConfigError.isRangeError : ConfigError → Bool
  | ConfigError.intervalRangeMin _ => true
  | ConfigError.intervalRangeMax _ => true
  | ConfigError.rangeOrder _ _ => true
  | _ => false

/-- The on-disk JSON document as `ConfigManager.load` distinguishes it:
either it parses into a full record (`json.load` followed by
`EternalGreenConfig(**data)` succeeding) or that pipeline raises
`JSONDecodeError`/`TypeError` (`malformed`). -/
inductive ConfigDoc where
  | record (r : EternalGreenConfig)
  | malformed
deriving DecidableEq, Repr

/-- The mutable state of a `ConfigManager`: the config file's contents
(`none` when the file does not exist) and the cached in-memory record
`self._config` (`none` before the first load/save). -/
structure ManagerState where
  file : Option ConfigDoc := none
  cache : Option EternalGreenConfig := none
deriving DecidableEq, Repr

/-- Embeds `ConfigManager.save` (config.py lines 77-86): validate first;
a non-empty error list raises `ValueError` joining every message and
leaves both the file and the cache untouched; otherwise the full record
is written and the cache is replaced. -/
def ManagerState.save (st : ManagerState) (c : EternalGreenConfig) :
    Except (List ConfigError) Unit × ManagerState :=
  match c.validate with
  | [] => (Except.ok (), { file := some (ConfigDoc.record c), cache := some c })
  | e :: es => (Except.error (e :: es), st)

/-- Embeds `ConfigManager.load` (config.py lines 62-75): an existing
parseable file is returned as-is and cached; a missing or malformed file
is replaced by a freshly persisted default record.  (`save` on the
default record always succeeds, mirroring the fact that the Python
defaults pass validation.) -/
def ManagerState.load (st : ManagerState) : EternalGreenConfig × ManagerState :=
  match st.file with
  | some (ConfigDoc.record r) => (r, { st with cache := some r })
  | _ =>
    let d : EternalGreenConfig := {}
    (d, (ManagerState.save { st with cache := some d } d).2)

/-- The keyword arguments of `ConfigManager.update`: an optional new
value per field. -/
structure ConfigPatch where
  interval_seconds : Option Int := none
  movement_pixels : Option Int := none
  silent_mode : Option Bool := none
  log_file_path : Option String := none
  random_interval : Option Bool := none
  interval_range_min : Option Int := none
  interval_range_max : Option Int := none
deriving DecidableEq, Repr

/-- Models `current_data.update(kwargs)` followed by
`EternalGreenConfig(**current_data)`: merge the patch onto a base
record, producing a fresh record. -/
def ConfigPatch.apply (p : ConfigPatch) (c : EternalGreenConfig) : EternalGreenConfig :=
  { interval_seconds := p.interval_seconds.getD c.interval_seconds
    movement_pixels := p.movement_pixels.getD c.movement_pixels
    silent_mode := p.silent_mode.getD c.silent_mode
    log_file_path := p.log_file_path.getD c.log_file_path
    random_interval := p.random_interval.getD c.random_interval
    interval_range_min := p.interval_range_min.getD c.interval_range_min
    interval_range_max := p.interval_range_max.getD c.interval_range_max }

/-- Embeds `ConfigManager.update` (config.py lines 88-97): load first if
nothing is cached yet, merge the given fields onto the cached record,
then `save` the merged record; a validation failure propagates out of
`update` with the manager left in its post-load state. -/
def ManagerState.update (st : ManagerState) (p : ConfigPatch) :
    Except (List ConfigError) EternalGreenConfig × ManagerState :=
  let st1 := match st.cache with
    | none => (st.load).2
    | some _ => st
  match st1.cache with
  | some base =>
    let c := p.apply base
    match st1.save c with
    | (Except.ok _, st2) => (Except.ok c, st2)
    | (Except.error es, st2) => (Except.error es, st2)
  | none => (Except.error [], st1)

/-! ## Activity simulator (simulator.py) -/

/-- A cursor position as pyautogui reports and sets it. -/
structure MousePos where
  x : Int
  y : Int
deriving DecidableEq, Repr

/-- The pointer state: the current position together with the trace of
positions the pointer has been driven through. -/
structure Cursor where
  pos : MousePos
  trace : List MousePos
deriving DecidableEq, Repr

/-- Models `pyautogui.position()`. -/
def Cursor.position (c : Cursor) : MousePos := c.pos

/-- Models `pyautogui.moveRel(dx, dy, duration=0)`: displace the pointer
relative to its current position. -/
def Cursor.moveRel (c : Cursor) (dx dy : Int) : Cursor :=
  let p : MousePos := ⟨c.pos.x + dx, c.pos.y + dy⟩
  { pos := p, trace := c.trace ++ [p] }

/-- Models `pyautogui.moveTo(x, y, duration=0)`: place the pointer at
absolute coordinates. -/
def Cursor.moveTo (c : Cursor) (x y : Int) : Cursor :=
  { pos := ⟨x, y⟩, trace := c.trace ++ [⟨x, y⟩] }

/-- Embeds `ActivitySimulator.move_mouse` (simulator.py lines 30-43):
read the current position, displace by `(pixels, pixels)`, then move
back to the recorded original coordinates. -/
def move_mouse (c : Cursor) (pixels : Int) : Cursor :=
  let originalX := (c.position).x
  let originalY := (c.position).y
  let c1 := c.moveRel pixels pixels
  c1.moveTo originalX originalY

/-- The log levels the `ActivityLogger` wrapper emits. -/
inductive LogLevel where
  | info
  | warning
  | error
deriving DecidableEq, Repr

/-- The messages the simulator prints/logs, one constructor per f-string
of simulator.py, carrying the interpolated data. -/
inductive SimMsg where
  | activityCompleted (pixels : Int) (silent : Bool) (nextInterval : Option Int)
  | simulationError
  | startLoop (cfg : EternalGreenConfig)
  | shutdown
deriving DecidableEq, Repr

/-- One observable effect of a simulator call. -/
inductive SimAction where
  | mouseMoved (pixels : Int)
  | keyPressed
  | printed (ok : Bool) (m : SimMsg)
  | logged (lvl : LogLevel) (m : SimMsg)
deriving DecidableEq, Repr

/-- The per-cycle behaviour of the world outside the simulator: whether
the pyautogui calls inside `move_mouse` raise, whether `press_key`
raises, the value `random.randint` returns this cycle, and whether a
stop request (direct `stop()` call or SIGINT routed through
`_handle_sigint`) arrives during this cycle's wait. -/
structure CycleEnv where
  moveRaises : Bool := false
  pressRaises : Bool := false
  randValue : Int := 0
  stopDuringWait : Bool := false
deriving DecidableEq, Repr

/-- Number of ERROR-level lines among the emitted actions. -/
def errorLogCount (acts : List SimAction) : Nat :=
  acts.countP fun a =>
    match a with
    | SimAction.logged LogLevel.error _ => true
    | _ => false

/-- Whether `press_key` was invoked among the emitted actions. -/
def keyPressInvoked (acts : List SimAction) : Bool :=
  acts.any fun a =>
    match a with
    | SimAction.keyPressed => true
    | _ => false

/-- Whether any injection call raised during the cycle described by `e`:
`move_mouse` raised, or `press_key` was reached (silent mode off, mouse
move succeeded) and raised. -/
def injectionRaises (cfg : EternalGreenConfig) (e : CycleEnv) : Bool :=
  e.moveRaises || (!cfg.silent_mode && e.pressRaises)

/-- Embeds `ActivitySimulator.simulate_activity` (simulator.py lines
49-88).  The body of the `try` runs until the first raising injection
call; any exception is caught, the error is printed and (when a logger
is attached) logged once, and the call reports `false`.  On the
non-raising path the success message is printed, logged when a logger is
attached, and the call reports `true`.  The simulator's `_running` flag
is not read or written here, exactly as in the source. -/
def simulate_activity (cfg : EternalGreenConfig) (hasLogger : Bool)
    (e : CycleEnv) (nextInterval : Option Int) : Bool × List SimAction :=
  let errActs : List SimAction :=
    [SimAction.printed false SimMsg.simulationError] ++
      (if hasLogger then [SimAction.logged LogLevel.error SimMsg.simulationError] else [])
  if e.moveRaises then
    (false, errActs)
  else
    let moveActs := [SimAction.mouseMoved cfg.movement_pixels]
    if !cfg.silent_mode && e.pressRaises then
      (false, moveActs ++ [SimAction.keyPressed] ++ errActs)
    else
      let pressActs := if !cfg.silent_mode then [SimAction.keyPressed] else []
      let okMsg := SimMsg.activityCompleted cfg.movement_pixels cfg.silent_mode nextInterval
      let okActs :=
        [SimAction.printed true okMsg] ++
          (if hasLogger then [SimAction.logged LogLevel.info okMsg] else [])
      (true, moveActs ++ pressActs ++ okActs)

/-- Embeds `ActivitySimulator._get_next_interval` (simulator.py lines
90-98).  `draw` is the value `random.randint(interval_range_min,
interval_range_max)` returns; randint's contract puts it in the
inclusive range. -/
def get_next_interval (cfg : EternalGreenConfig) (draw : Int) : Int :=
  if cfg.random_interval then draw else cfg.interval_seconds

/-- The slot `signal.getsignal(signal.SIGINT)` reads and
`signal.signal(signal.SIGINT, ...)` writes: either some handler that
existed outside the simulator, or the simulator's own `_handle_sigint`. -/
inductive SigHandler where
  | external (id : Nat)
  | simStop
deriving DecidableEq, Repr

/-- The mutable fields of an `ActivitySimulator` relevant to the loop,
together with the process-level SIGINT slot and a counter of how many
times a restore write to that slot has been performed. -/
structure SimState where
  running : Bool := false
  stopEventSet : Bool := false
  sigintSlot : SigHandler := SigHandler.external 0
  savedHandler : Option SigHandler := none
  restoreCount : Nat := 0
deriving DecidableEq, Repr

/-- Embeds `ActivitySimulator.stop` (simulator.py lines 136-143): clear
the running flag, set the stop event, announce shutdown (logged when a
logger is attached). -/
def stop (hasLogger : Bool) (s : SimState) : SimState × List SimAction :=
  ({ s with running := false, stopEventSet := true },
    [SimAction.printed true SimMsg.shutdown] ++
      (if hasLogger then [SimAction.logged LogLevel.info SimMsg.shutdown] else []))

/-- Embeds `ActivitySimulator._cleanup` (simulator.py lines 154-158):
restore the saved SIGINT handler if one is held, then drop it, so a
second call is a no-op. -/
def cleanup (s : SimState) : SimState :=
  match s.savedHandler with
  | some h =>
    { s with sigintSlot := h, savedHandler := none, restoreCount := s.restoreCount + 1 }
  | none => s

/-- The `while self._running:` loop of `start_loop` (simulator.py lines
122-132), driven by one `CycleEnv` per iteration; the list of
environments is the horizon of the run (an empty list ends it, standing
for an unbounded continuation cut off for observation).  Each iteration
draws the next interval, runs one `simulate_activity` cycle (its Boolean
result is collected; `start_loop` itself ignores it), and then waits:
a stop request arriving during the wait runs `stop` and breaks. -/
def loopGo (cfg : EternalGreenConfig) (hasLogger : Bool) :
    List CycleEnv → SimState → SimState × List Bool × List SimAction
  | [], s => (s, [], [])
  | e :: rest, s =>
    if s.running then
      let ni := get_next_interval cfg e.randValue
      let (r, acts) := simulate_activity cfg hasLogger e (some ni)
      if e.stopDuringWait then
        let (s1, stopActs) := stop hasLogger s
        (s1, [r], acts ++ stopActs)
      else
        let (s2, rs, acts2) := loopGo cfg hasLogger rest s
        (s2, r :: rs, acts ++ acts2)
    else (s, [], [])

/-- Embeds `ActivitySimulator.start_loop` (simulator.py lines 100-134):
set the running flag, clear the stop event, save the current SIGINT
handler and install the simulator's own, announce the start, run the
loop, and — in the `finally` — run `_cleanup`. -/
def start_loop (cfg : EternalGreenConfig) (hasLogger : Bool)
    (envs : List CycleEnv) (s : SimState) : SimState × List Bool × List SimAction :=
  let s1 : SimState := { s with running := true, stopEventSet := false }
  let s2 : SimState :=
    { s1 with savedHandler := some s1.sigintSlot, sigintSlot := SigHandler.simStop }
  let startActs : List SimAction :=
    [SimAction.printed true (SimMsg.startLoop cfg)] ++
      (if hasLogger then [SimAction.logged LogLevel.info (SimMsg.startLoop cfg)] else [])
  let t := loopGo cfg hasLogger envs s2
  (cleanup t.1, t.2.1, startActs ++ t.2.2)

/-! ## Theorems -/

/-- Helper: `loopGo` never touches the SIGINT bookkeeping: the slot, the saved
handler and the restore counter of the final state equal those of the
initial state (only `running`/`stopEventSet` change, via `stop`). -/
theorem loopGo_preserves_sigint (cfg : EternalGreenConfig) (hasLogger : Bool)
    (envs : List CycleEnv) (s : SimState) :
    (loopGo cfg hasLogger envs s).1.sigintSlot = s.sigintSlot ∧
    (loopGo cfg hasLogger envs s).1.savedHandler = s.savedHandler ∧
    (loopGo cfg hasLogger envs s).1.restoreCount = s.restoreCount := by
  induction envs generalizing s with
  | nil => exact ⟨rfl, rfl, rfl⟩
  | cons e rest ih =>
    simp only [loopGo]
    by_cases hr : s.running <;> by_cases hs : e.stopDuringWait <;>
      simp [hr, hs, stop, ih s]

/-- C1: a cycle whose injection raises (with a logger attached) returns
`False`, logs exactly one ERROR line, and — when no stop request arrives
during the wait — the loop carries the very same state (its running flag
still true) into the remaining cycles, recording this cycle as a failed
one and continuing. -/
theorem cycle_failure_is_resilient (cfg : EternalGreenConfig) (e : CycleEnv)
    (rest : List CycleEnv) (s : SimState) (ni : Option Int)
    (hraise : injectionRaises cfg e = true)
    (hstop : e.stopDuringWait = false)
    (hrun : s.running = true) :
    (simulate_activity cfg true e ni).1 = false ∧
    errorLogCount (simulate_activity cfg true e ni).2 = 1 ∧
    loopGo cfg true (e :: rest) s =
      ((loopGo cfg true rest s).1,
        false :: (loopGo cfg true rest s).2.1,
        (simulate_activity cfg true e (some (get_next_interval cfg e.randValue))).2 ++
          (loopGo cfg true rest s).2.2) := by
  have hsim : ∀ ni', (simulate_activity cfg true e ni').1 = false ∧
      errorLogCount (simulate_activity cfg true e ni').2 = 1 := by
    intro ni'
    simp only [injectionRaises, Bool.or_eq_true, Bool.and_eq_true] at hraise
    rcases hraise with hm | ⟨hsil, hp⟩
    · simp [simulate_activity, hm, errorLogCount]
    · cases hm : e.moveRaises
      · simp [simulate_activity, hm, hsil, hp, errorLogCount]
      · simp [simulate_activity, hm, errorLogCount]
  refine ⟨(hsim ni).1, (hsim ni).2, ?_⟩
  have hgo : loopGo cfg true (e :: rest) s =
      if s.running then
        let niv := get_next_interval cfg e.randValue
        let p := simulate_activity cfg true e (some niv)
        if e.stopDuringWait then
          let q := stop true s
          (q.1, [p.1], p.2 ++ q.2)
        else
          let t := loopGo cfg true rest s
          (t.1, p.1 :: t.2.1, p.2 ++ t.2.2)
      else (s, [], []) := rfl
  rw [hgo]
  simp [hrun, hstop, (hsim (some (get_next_interval cfg e.randValue))).1]

/-- Witness for `cycle_failure_is_resilient` at the default
configuration, a cycle whose mouse move raises, and a running state. -/
theorem cycle_failure_is_resilient_witness :
    injectionRaises {} { moveRaises := true } = true ∧
    ({ moveRaises := true } : CycleEnv).stopDuringWait = false ∧
    ({ running := true } : SimState).running = true ∧
    (simulate_activity {} true { moveRaises := true } none).1 = false ∧
    errorLogCount (simulate_activity {} true { moveRaises := true } none).2 = 1 :=
  have h := cycle_failure_is_resilient {} { moveRaises := true } []
    { running := true } none (by decide) (by decide) (by decide)
  ⟨by decide, by decide, by decide, h.1, h.2.1⟩

/-- C2: on a cycle where the mouse-move injection does not raise, the
key press is performed if and only if silent mode is off. -/
theorem key_press_iff_not_silent (cfg : EternalGreenConfig) (hasLogger : Bool)
    (e : CycleEnv) (ni : Option Int) (hmove : e.moveRaises = false) :
    keyPressInvoked (simulate_activity cfg hasLogger e ni).2 = true ↔
      cfg.silent_mode = false := by
  cases hsil : cfg.silent_mode <;> cases hp : e.pressRaises <;>
    simp [simulate_activity, hmove, hsil, hp, keyPressInvoked]

/-- Witness for `key_press_iff_not_silent`: with silent mode off (the
default) and a clean cycle, the key press happens. -/
theorem key_press_iff_not_silent_witness :
    ({} : CycleEnv).moveRaises = false ∧
    (keyPressInvoked (simulate_activity {} true {} none).2 = true ↔
      ({} : EternalGreenConfig).silent_mode = false) :=
  ⟨by decide, key_press_iff_not_silent {} true {} none (by decide)⟩

/-- C3: one `move_mouse` call returns the cursor to its starting
position — zero net displacement — while the trace shows the cursor was
first displaced by the configured number of pixels in each axis. -/
theorem move_mouse_zero_net_displacement (c : Cursor) (pixels : Int) :
    (move_mouse c pixels).pos = c.pos ∧
      (⟨c.pos.x + pixels, c.pos.y + pixels⟩ : MousePos) ∈ (move_mouse c pixels).trace := by
  simp [move_mouse, Cursor.moveRel, Cursor.moveTo, Cursor.position]

/-- C4: with `random.randint`'s contract (an inclusive in-range draw)
assumed of `draw`, the next-interval computation returns the draw —
hence a value in `[interval_range_min, interval_range_max]` — when
`random_interval` is on, always returns exactly `interval_seconds` when
it is off, and when the range spans more than one integer two admissible
draws produce different intervals. -/
theorem next_interval_policy (cfg : EternalGreenConfig) (draw : Int)
    (hlo : cfg.interval_range_min ≤ draw) (hhi : draw ≤ cfg.interval_range_max) :
    (cfg.random_interval = true →
      get_next_interval cfg draw = draw ∧
      cfg.interval_range_min ≤ get_next_interval cfg draw ∧
      get_next_interval cfg draw ≤ cfg.interval_range_max) ∧
    (cfg.random_interval = false →
      get_next_interval cfg draw = cfg.interval_seconds) ∧
    (cfg.random_interval = true → cfg.interval_range_min < cfg.interval_range_max →
      ∃ d1 d2 : Int, cfg.interval_range_min ≤ d1 ∧ d1 ≤ cfg.interval_range_max ∧
        cfg.interval_range_min ≤ d2 ∧ d2 ≤ cfg.interval_range_max ∧
        get_next_interval cfg d1 ≠ get_next_interval cfg d2) := by
  refine ⟨?_, ?_, ?_⟩
  · intro hr
    simp [get_next_interval, hr, hlo, hhi]
  · intro hr
    simp [get_next_interval, hr]
  · intro hr hlt
    refine ⟨cfg.interval_range_min, cfg.interval_range_max, le_refl _, le_of_lt hlt,
      le_of_lt hlt, le_refl _, ?_⟩
    simp only [get_next_interval, hr, if_true]
    omega

/-- Witness for `next_interval_policy` at a randomized configuration
with range 10-60 and draw 15. -/
theorem next_interval_policy_witness :
    ({ random_interval := true } : EternalGreenConfig).interval_range_min ≤ 15 ∧
    (15 : Int) ≤ ({ random_interval := true } : EternalGreenConfig).interval_range_max ∧
    get_next_interval { random_interval := true } 15 = 15 :=
  have h := next_interval_policy { random_interval := true } 15 (by decide) (by decide)
  ⟨by decide, by decide, (h.1 (by decide)).1⟩

/-- C5: saving a record that passes validation succeeds, and a
subsequent `load` on the same manager returns a record equal to the
original in every field and caches it. -/
theorem save_load_round_trip (r : EternalGreenConfig) (st : ManagerState)
    (hval : r.validate = []) :
    (st.save r).1 = Except.ok () ∧
    ((st.save r).2.load).1 = r ∧
    ((st.save r).2.load).2.cache = some r := by
  simp [ManagerState.save, ManagerState.load, hval]

/-- Witness for `save_load_round_trip` at the default record. -/
theorem save_load_round_trip_witness :
    ({} : EternalGreenConfig).validate = [] ∧
    ((({} : ManagerState).save {}).2.load).1 = ({} : EternalGreenConfig) :=
  ⟨by decide, (save_load_round_trip {} {} (by decide)).2.1⟩

/-- C6: an out-of-bounds `interval_seconds` or `movement_pixels` each
puts its naming message into `validate`'s result, and `save` on such a
record raises carrying the *entire* list of violations, not just the
first. -/
theorem out_of_bounds_named_and_save_raises (r : EternalGreenConfig) (st : ManagerState)
    (hout : (r.interval_seconds < 10 ∨ r.interval_seconds > 3600) ∨
      (r.movement_pixels < 1 ∨ r.movement_pixels > 100)) :
    ((r.interval_seconds < 10 ∨ r.interval_seconds > 3600) →
      ConfigError.intervalSeconds r.interval_seconds ∈ r.validate) ∧
    ((r.movement_pixels < 1 ∨ r.movement_pixels > 100) →
      ConfigError.movementPixels r.movement_pixels ∈ r.validate) ∧
    (st.save r).1 = Except.error r.validate := by
  have hmem1 : (r.interval_seconds < 10 ∨ r.interval_seconds > 3600) →
      ConfigError.intervalSeconds r.interval_seconds ∈ r.validate := by
    intro h
    simp [EternalGreenConfig.validate, h]
  have hmem2 : (r.movement_pixels < 1 ∨ r.movement_pixels > 100) →
      ConfigError.movementPixels r.movement_pixels ∈ r.validate := by
    intro h
    simp [EternalGreenConfig.validate, h]
  have hne : r.validate ≠ [] := by
    intro hnil
    rcases hout with h | h
    · exact absurd (hmem1 h) (by simp [hnil])
    · exact absurd (hmem2 h) (by simp [hnil])
  refine ⟨hmem1, hmem2, ?_⟩
  cases hv : r.validate with
  | nil => exact absurd hv hne
  | cons e es => simp [ManagerState.save, hv]

/-- Witness for `out_of_bounds_named_and_save_raises` at a record with
both fields out of bounds. -/
theorem out_of_bounds_named_and_save_raises_witness :
    ((5 : Int) < 10 ∨ (5 : Int) > 3600) ∧
    (({} : ManagerState).save { interval_seconds := 5, movement_pixels := 0 }).1 =
      Except.error ({ interval_seconds := 5, movement_pixels := 0 } :
        EternalGreenConfig).validate :=
  ⟨Or.inl (by decide),
    (out_of_bounds_named_and_save_raises
      { interval_seconds := 5, movement_pixels := 0 } {} (Or.inl (Or.inl (by decide)))).2.2⟩

/-- C7 counterexample: on a fresh manager (no cached record, no file on
disk), `update` with a field making the merged record invalid does
raise, but only after its internal `load` has created and persisted the
default file — so the on-disk config file does not stay unchanged. -/
theorem update_on_fresh_manager_writes_defaults :
    (({} : ManagerState).update { movement_pixels := some 0 }).1 =
      Except.error [ConfigError.movementPixels 0] ∧
    (({} : ManagerState).update { movement_pixels := some 0 }).2.file ≠
      ({} : ManagerState).file :=
  ⟨rfl, by decide⟩

/-- C7 amended: `save` on an invalid record raises (with a non-empty
violation list) and leaves the manager state — file and cache — exactly
unchanged; `update` on a manager that already holds a cached record
behaves the same when the merged record is invalid.  (On a manager with
no cached record, `update` first loads — possibly creating and
persisting the default file — and then raises, leaving that post-load
state unchanged; the invalid record itself is never persisted.) -/
theorem invalid_record_never_persisted (st : ManagerState) (r : EternalGreenConfig)
    (p : ConfigPatch) (base : EternalGreenConfig)
    (hr : r.validate ≠ [])
    (hcache : st.cache = some base)
    (hp : (p.apply base).validate ≠ []) :
    (st.save r).2 = st ∧
    (∃ es, es ≠ [] ∧ (st.save r).1 = Except.error es) ∧
    (st.update p).2 = st ∧
    (∃ es, es ≠ [] ∧ (st.update p).1 = Except.error es) := by
  have hsave : ∀ (st' : ManagerState) (c : EternalGreenConfig), c.validate ≠ [] →
      (st'.save c).2 = st' ∧ ∃ es, es ≠ [] ∧ (st'.save c).1 = Except.error es := by
    intro st' c hc
    cases hv : c.validate with
    | nil => exact absurd hv hc
    | cons e es => exact ⟨by simp [ManagerState.save, hv], e :: es, by simp,
        by simp [ManagerState.save, hv]⟩
  have h1 := hsave st r hr
  have h2 := hsave st (p.apply base) hp
  refine ⟨h1.1, h1.2, ?_, ?_⟩
  · show (st.update p).2 = st
    simp only [ManagerState.update, hcache]
    rcases h2.2 with ⟨es, _, herr⟩
    rcases hh : st.save (p.apply base) with ⟨exc, st2⟩
    have : exc = Except.error es := by rw [← herr, hh]
    have hst2 : st2 = st := by rw [← h2.1, hh]
    subst this
    simp [hst2]
  · show ∃ es, es ≠ [] ∧ (st.update p).1 = Except.error es
    rcases h2.2 with ⟨es, hne, herr⟩
    refine ⟨es, hne, ?_⟩
    simp only [ManagerState.update, hcache]
    rcases hh : st.save (p.apply base) with ⟨exc, st2⟩
    have : exc = Except.error es := by rw [← herr, hh]
    subst this
    simp

/-- Witness for `invalid_record_never_persisted` at a manager caching
the default record, an invalid record, and a patch to an invalid
`movement_pixels`. -/
theorem invalid_record_never_persisted_witness :
    ({ interval_seconds := 5 } : EternalGreenConfig).validate ≠ [] ∧
    ({ cache := some {} } : ManagerState).cache = some {} ∧
    (({ movement_pixels := some 0 } : ConfigPatch).apply {}).validate ≠ [] ∧
    (({ cache := some {} } : ManagerState).update { movement_pixels := some 0 }).2 =
      ({ cache := some {} } : ManagerState) :=
  ⟨by decide, by decide, by decide,
    (invalid_record_never_persisted { cache := some {} } { interval_seconds := 5 }
      { movement_pixels := some 0 } {} (by decide) (by decide) (by decide)).2.2.1⟩

/-- C8: however a `start_loop` run ends — a stop request in some cycle,
or the observation horizon running out — the pre-start SIGINT handler is
written back into the slot, the restore counter advances by exactly one,
and no saved handler is left behind. -/
theorem sigint_handler_restored_once (cfg : EternalGreenConfig) (hasLogger : Bool)
    (envs : List CycleEnv) (s : SimState) :
    (start_loop cfg hasLogger envs s).1.sigintSlot = s.sigintSlot ∧
    (start_loop cfg hasLogger envs s).1.restoreCount = s.restoreCount + 1 ∧
    (start_loop cfg hasLogger envs s).1.savedHandler = none := by
  obtain ⟨h1, h2, h3⟩ := loopGo_preserves_sigint cfg hasLogger envs { running := true, stopEventSet := false, sigintSlot := SigHandler.simStop, savedHandler := some s.sigintSlot, restoreCount := s.restoreCount }
  simp only at h1 h2 h3
  simp [start_loop, cleanup, h1, h2, h3]

/-- C9: the validation of the range fields passes (no range-field error
in `validate`'s output) exactly when both bounds are integers in
10-3600 and the min is strictly below the max; in particular every
record with `interval_range_min ≥ interval_range_max` gets the ordering
error, naming both values. -/
theorem range_fields_validation (r : EternalGreenConfig) :
    ((r.validate.filter ConfigError.isRangeError) = [] ↔
      (10 ≤ r.interval_range_min ∧ r.interval_range_min ≤ 3600 ∧
       10 ≤ r.interval_range_max ∧ r.interval_range_max ≤ 3600 ∧
       r.interval_range_min < r.interval_range_max)) ∧
    (r.interval_range_min ≥ r.interval_range_max →
      ConfigError.rangeOrder r.interval_range_min r.interval_range_max ∈ r.validate) := by
  constructor
  · simp only [EternalGreenConfig.validate, List.filter_append, List.append_eq_nil]
    split_ifs <;>
      simp_all [ConfigError.isRangeError, List.filter] <;> omega
  · intro h
    simp [EternalGreenConfig.validate, h]

/-- Witness for `range_fields_validation` at a record with an inverted
range. -/
theorem range_fields_validation_witness :
    (60 : Int) ≥ 10 ∧
    ConfigError.rangeOrder 60 10 ∈
      ({ interval_range_min := 60, interval_range_max := 10 } :
        EternalGreenConfig).validate :=
  ⟨by decide,
    (range_fields_validation { interval_range_min := 60, interval_range_max := 10 }).2
      (by decide)⟩

/-- C10: `load` applies no validation: a stored well-formed document
whose record fails validation is returned as-is, cached as the current
record, and the file is neither rewritten nor replaced by defaults
(`load` is total in the model — it raises nothing on this path). -/
theorem load_skips_validation (r : EternalGreenConfig) (st : ManagerState)
    (hfile : st.file = some (ConfigDoc.record r))
    (_hinv : r.validate ≠ []) :
    (st.load).1 = r ∧
    (st.load).2.cache = some r ∧
    (st.load).2.file = st.file := by
  simp [ManagerState.load, hfile]

/-- Witness for `load_skips_validation` at a stored record whose
`interval_seconds` is below 10. -/
theorem load_skips_validation_witness :
    ({ file := some (ConfigDoc.record { interval_seconds := 5 }) } :
        ManagerState).file = some (ConfigDoc.record { interval_seconds := 5 }) ∧
    ({ interval_seconds := 5 } : EternalGreenConfig).validate ≠ [] ∧
    (({ file := some (ConfigDoc.record { interval_seconds := 5 }) } :
        ManagerState).load).1 = ({ interval_seconds := 5 } : EternalGreenConfig) :=
  ⟨by decide, by decide,
    (load_skips_validation { interval_seconds := 5 }
      { file := some (ConfigDoc.record { interval_seconds := 5 }) }
      (by decide) (by decide)).1⟩

end EternalGreen
